import Mathlib

/-!
Verification development for the EchoRAG continuous fine-tuning orchestrator.

The definitions below are a shallow embedding of the Python sources:
`utils/conversation_collector.py` (ConversationCollector),
`utils/mlops_manager.py` (MLOpsManager), and
`utils/automated_finetuning.py` (AutomatedFinetuner).
Text is modelled as `List Char`, machine integers as `Nat`/`Int`,
the mutable manager object as an explicit state record, and the
concurrent trigger/worker protocol as a labelled transition system whose
atomic steps correspond to the lock-protected critical sections of the code.
-/

namespace EchoRAG

/-- Python `str` is modelled as a list of characters. -/
abbrev Str := List Char

/-- Python `str.lower()`. -/
def lowerStr (s : Str) : Str := s.map Char.toLower

/-- Python `str.strip()`: drop whitespace from both ends. -/
def stripStr (s : Str) : Str :=
  ((s.dropWhile Char.isWhitespace).reverse.dropWhile Char.isWhitespace).reverse

/-- Python `needle in hay` substring test on strings. -/
def containsSub (hay needle : Str) : Bool :=
  hay.tails.any fun t => needle.isPrefixOf t

/-- The `system_keywords` list hard-coded in
`ConversationCollector.is_valid_conversation`. -/
def systemKeywords : List Str :=
  ["초기화".data, "설정".data, "오류".data, "서버".data, "모델".data, "로딩".data,
   "API".data, "시스템".data, "에러".data, "debug".data, "test".data,
   "health".data, "status".data]

/-- Configuration fields of `ConversationCollector` that the validation
logic reads (`enabled`, `min_length`, `max_length`, `filter_system`). -/
structure CollectorConfig where
  enabled : Bool
  minLength : Nat
  maxLength : Nat
  filterSystem : Bool
deriving DecidableEq

/-- The collector statistics the claims are about
(`stats["total_collected"]`, `stats["filtered_out"]`, `stats["last_collection"]`). -/
structure CollectorStats where
  totalCollected : Nat
  filteredOut : Nat
  lastCollection : Option Str
deriving DecidableEq

/-- `ConversationCollector.is_valid_conversation`: returns a validity flag and
a reason.  Checks, in source order: collection enabled; trimmed length of each
text against `min_length`/`max_length`; then, when `filter_system` is set,
whether the lowercased combined text `user + " " + assistant` contains one of
`systemKeywords` verbatim. -/
def isValidConversation (cfg : CollectorConfig) (userMessage assistantResponse : Str) :
    Bool × Str :=
  if !cfg.enabled then (false, "collection disabled".data)
  else
    let userLen := (stripStr userMessage).length
    let assistantLen := (stripStr assistantResponse).length
    if userLen < cfg.minLength then (false, "user message too short".data)
    else if assistantLen < cfg.minLength then (false, "assistant message too short".data)
    else if cfg.maxLength < userLen then (false, "user message too long".data)
    else if cfg.maxLength < assistantLen then (false, "assistant message too long".data)
    else if cfg.filterSystem then
      match systemKeywords.find?
          (fun keyword =>
            containsSub (lowerStr (userMessage ++ [' '] ++ assistantResponse)) keyword) with
      | some _ => (false, "system message filtered".data)
      | none => (true, "valid".data)
    else (true, "valid".data)

/-- `ConversationCollector.collect_conversation`: validate; on rejection bump
`filtered_out`; on success of the durable append (`saveOk` models the outcome
of `_save_to_file`) bump `total_collected` and record the timestamp; on a
failed write leave the stats untouched and return `false`. -/
def collectConversation (cfg : CollectorConfig) (st : CollectorStats)
    (userMessage assistantResponse ts : Str) (saveOk : Bool) :
    Bool × CollectorStats :=
  let v := isValidConversation cfg userMessage assistantResponse
  if !v.1 then
    (false, { st with filteredOut := st.filteredOut + 1 })
  else if saveOk then
    (true, { st with totalCollected := st.totalCollected + 1, lastCollection := some ts })
  else
    (false, st)

example :
    (collectConversation ⟨true, 5, 2000, true⟩ ⟨0, 0, none⟩
      "good morning my friend".data "a very good morning to you as well".data [] true).1
      = true := by decide

example :
    (collectConversation ⟨true, 5, 2000, true⟩ ⟨0, 0, none⟩
      "please run a test now".data "ok running the diagnostic".data [] true).1
      = false := by decide

/-!
## The MLOpsManager coordinator

`MLOpsManager` (the manager actually constructed by `app.py`) holds the
collector, the batch settings and the single-flight training state.  All
flag transitions in the source happen inside `with self.lock:` blocks, so
each of the steps below models one lock-protected critical section
executed atomically; `activeWorkers` counts live `training_worker` threads.
-/

/-- The mutable fields of `MLOpsManager` (plus the embedded collector state)
that the claims are about. -/
structure MState where
  collectorEnabled : Bool
  minLength : Nat
  maxLength : Nat
  filterSystem : Bool
  stats : CollectorStats
  batchSize : Int
  autoTrigger : Bool
  monitoringEnabled : Bool
  finetunerEnabled : Bool
  trainingInProgress : Bool
  pendingTrainingRequest : Bool
  lastTrainingCount : Nat
  activeWorkers : Nat
  workerSnapshot : Nat
deriving DecidableEq

/-- The collector configuration currently in force (the collector's `enabled`
flag is mutable through `update_settings`). -/
def collectorConfigOf (s : MState) : CollectorConfig :=
  ⟨s.collectorEnabled, s.minLength, s.maxLength, s.filterSystem⟩

/-- `MLOpsManager._get_new_data_count`:
`total_collected - last_training_count` (Python int arithmetic). -/
def getNewDataCount (s : MState) : Int :=
  (s.stats.totalCollected : Int) - (s.lastTrainingCount : Int)

/-- `MLOpsManager._should_trigger_training`: due iff
`new_data_count >= batch_size`. -/
def shouldTriggerTraining (s : MState) : Bool :=
  s.batchSize ≤ getNewDataCount s

/-- `MLOpsManager._trigger_async_training`: under the lock, refuse when a job
is already in progress; otherwise set the flag, spawn the worker (which
captures `total_collected` at its start) and report success. -/
def triggerAsyncTraining (s : MState) : MState × Bool :=
  if s.trainingInProgress then (s, false)
  else
    ({ s with trainingInProgress := true,
              activeWorkers := s.activeWorkers + 1,
              workerSnapshot := s.stats.totalCollected }, true)

/-- The fields of the result dictionary built by
`MLOpsManager.process_conversation` that the claims mention. -/
structure PCResult where
  collected : Bool
  totalCollected : Nat
  newDataCount : Int
  shouldTrain : Bool
  pendingCount : Int
  trainingTriggered : Bool
  trainingQueued : Bool
deriving DecidableEq

/-- `MLOpsManager.process_conversation`: collect the turn; when collected and
auto-trigger is on with a finetuner present, evaluate the delta trigger; if
due, either start a job (idle) or set the queued-request flag (running). -/
def processConversationM (s : MState) (userMessage assistantResponse ts : Str)
    (saveOk : Bool) : MState × PCResult :=
  let c := collectConversation (collectorConfigOf s) s.stats userMessage assistantResponse ts saveOk
  let s1 := { s with stats := c.2 }
  let currentCount := s1.stats.totalCollected
  let newDataCount := getNewDataCount s1
  let base : PCResult :=
    ⟨c.1, currentCount, newDataCount, false, 0, false, false⟩
  if c.1 then
    if s1.autoTrigger && s1.finetunerEnabled then
      let shouldTrain := shouldTriggerTraining s1
      let pendingCount := max 0 (s1.batchSize - newDataCount)
      if shouldTrain then
        if !s1.trainingInProgress then
          let t := triggerAsyncTraining s1
          (t.1, { base with shouldTrain := shouldTrain, pendingCount := pendingCount,
                            trainingTriggered := t.2 })
        else
          ({ s1 with pendingTrainingRequest := true },
           { base with shouldTrain := shouldTrain, pendingCount := pendingCount,
                       trainingQueued := true })
      else
        (s1, { base with shouldTrain := shouldTrain, pendingCount := pendingCount })
    else (s1, base)
  else (s1, base)

/-- Termination of `training_worker` together with
`MLOpsManager._check_pending_training`.  On success `last_training_count`
becomes the count the worker captured at its start; then the pending request
is re-examined: if the accumulated delta still meets `batch_size` the request
is cleared and the delayed re-trigger starts one follow-up job (the worker
slot is handed over), otherwise the request is released and the coordinator
goes idle.  On failure the flag is cleared and the pending request survives. -/
def finishJobM (s : MState) (success : Bool) : MState :=
  if s.activeWorkers = 0 then s
  else if success then
    let s1 := { s with lastTrainingCount := s.workerSnapshot }
    if s1.pendingTrainingRequest then
      if s1.batchSize ≤ getNewDataCount s1 then
        { s1 with pendingTrainingRequest := false,
                  workerSnapshot := s1.stats.totalCollected }
      else
        { s1 with pendingTrainingRequest := false,
                  trainingInProgress := false,
                  activeWorkers := s.activeWorkers - 1 }
    else
      { s1 with trainingInProgress := false, activeWorkers := s.activeWorkers - 1 }
  else
    { s with trainingInProgress := false, activeWorkers := s.activeWorkers - 1 }

/-- Keyword arguments accepted by `MLOpsManager.update_settings`. -/
structure UpdateArgs where
  batchSize : Option Int
  autoTrigger : Option Bool
  collectionEnabled : Option Bool
  monitoringEnabled : Option Bool
deriving DecidableEq

/-- `MLOpsManager.update_settings`: each supplied field is handled by its own
independent `if`; `batch_size` is applied only when positive, the boolean
fields are applied unconditionally; the returned list collects the keys of
the fields that changed (the `updated` dictionary). -/
def updateSettingsM (s : MState) (args : UpdateArgs) : MState × List Str :=
  let p1 :=
    match args.batchSize with
    | some b => if 0 < b then ({ s with batchSize := b }, ["batch_size".data]) else (s, [])
    | none => (s, [])
  let p2 :=
    match args.autoTrigger with
    | some v => ({ p1.1 with autoTrigger := v }, p1.2 ++ ["auto_trigger".data])
    | none => p1
  let p3 :=
    match args.collectionEnabled with
    | some v => ({ p2.1 with collectorEnabled := v }, p2.2 ++ ["collection_enabled".data])
    | none => p2
  match args.monitoringEnabled with
  | some v => ({ p3.1 with monitoringEnabled := v }, p3.2 ++ ["monitoring_enabled".data])
  | none => p3

/-- `ConversationCollector.clear_conversations`: the durable log is deleted and
the collector stats are reset to zero; the manager's `last_training_count` is
not touched. -/
def clearConversationsM (s : MState) : MState :=
  { s with stats := ⟨0, 0, none⟩ }

/-- The atomic actions of the coordinator transition system. -/
inductive MAct where
  | processConversation (userMessage assistantResponse ts : Str) (saveOk : Bool)
  | finishJob (success : Bool)
  | applySettings (args : UpdateArgs)
  | clearConversations
  | backupConversations
deriving DecidableEq

/-- One atomic step of the coordinator
(`backup_conversations` copies the log and leaves all state unchanged). -/
def stepM (s : MState) : MAct → MState
  | .processConversation u a ts ok => (processConversationM s u a ts ok).1
  | .finishJob ok => finishJobM s ok
  | .applySettings args => (updateSettingsM s args).1
  | .clearConversations => clearConversationsM s
  | .backupConversations => s

/-- Run a sequence of atomic actions. -/
def runM (s : MState) (acts : List MAct) : MState := acts.foldl stepM s

/-- The state `MLOpsManager.__init__` produces. -/
def initState (cfg : CollectorConfig) (batch : Int) (auto fin : Bool) : MState :=
  { collectorEnabled := cfg.enabled
    minLength := cfg.minLength
    maxLength := cfg.maxLength
    filterSystem := cfg.filterSystem
    stats := ⟨0, 0, none⟩
    batchSize := batch
    autoTrigger := auto
    monitoringEnabled := true
    finetunerEnabled := fin
    trainingInProgress := false
    pendingTrainingRequest := false
    lastTrainingCount := 0
    activeWorkers := 0
    workerSnapshot := 0 }

/-!
## Trigger policies

`_should_trigger_training` above is the delta policy used by the live
manager; `ConversationCollector.should_trigger_training` is the modulo
variant still present in the sources (used only by the dead
`MLOpsDataManager` class, which `app.py` never instantiates).
-/

/-- `ConversationCollector.should_trigger_training`:
`total_collected >= batch_size and total_collected % batch_size == 0`. -/
def collectorShouldTriggerTraining (total batch : Nat) : Bool :=
  batch ≤ total && total % batch == 0

/-- The delta policy exactly as the spec words it:
`new_data_count = total_collected - last_training_count`, due iff
`new_data_count >= batch_size`.  (Spec-side definition, for comparison with
the code-side `shouldTriggerTraining`.) -/
def specDeltaPolicy (total last : Nat) (batch : Int) : Bool :=
  batch ≤ (total : Int) - (last : Int)

/-!
## Label masking in `AutomatedFinetuner._load_and_prepare_dataset`

`tokenize_function` builds, per sample, a `labels` list from the full token
sequence `input_ids` and the separately tokenized assistant span
`assistant_tokens`: positions of the first exact contiguous occurrence are
supervised; if none exists the fallback marks positions
`len(input_ids) - len(assistant_tokens) - 2` up to `len(input_ids) - 2`.
-/

/-- The search loop `for start_idx in range(len(input_ids) -
len(assistant_tokens) + 1)` returning the first exact contiguous match. -/
def findSubIdx (inputIds target : List Int) : Option Nat :=
  (List.range (inputIds.length + 1 - target.length)).find?
    fun s => (inputIds.drop s).take target.length == target

/-- The label construction of `tokenize_function` (the supervision mask):
`-100` everywhere except the supervised span.  Exact-match branch: the span
of the first occurrence.  Fallback branch: `estimated_start = total -
target - 2`; when positive, positions `estimated_start` to
`len(input_ids) - 2`; otherwise nothing.  An empty target yields all
`-100`. -/
def makeLabel (inputIds target : List Int) : List Int :=
  if 0 < target.length then
    match findSubIdx inputIds target with
    | some s =>
        (List.range inputIds.length).map fun j =>
          if s ≤ j ∧ j < s + target.length then inputIds.getD j (-100) else -100
    | none =>
        let estimatedStart : Int := (inputIds.length : Int) - (target.length : Int) - 2
        if 0 < estimatedStart then
          (List.range inputIds.length).map fun (j : Nat) =>
            if estimatedStart ≤ (j : Int) ∧ j + 1 < inputIds.length then
              inputIds.getD j (-100)
            else -100
        else List.replicate inputIds.length (-100)
  else List.replicate inputIds.length (-100)

example : makeLabel [1, 2, 3, 4, 5, 6, 7, 8] [3, 4] =
    [-100, -100, 3, 4, -100, -100, -100, -100] := by decide

example : makeLabel [1, 2, 3, 4, 5, 6, 7, 8] [9, 9] =
    [-100, -100, -100, -100, 5, 6, 7, -100] := by decide

/-!
## Backup rotation in `AutomatedFinetuner`

`_backup_existing_models` collects the parsed version numbers of the
existing `v<n>` directories, sorts ascending, and pops the lowest while the
count is at or above `backup_count`; `run_automated_finetuning` calls it
first and materializes the new version directory afterwards.
-/

/-- The `while len(models) >= self.backup_count: models.pop(0)` loop
(deleting the popped directory).  Popping from an empty list raises, which
is modelled by `none`. -/
def rotateLoop (keep : Nat) : List Nat → Option (List Nat)
  | [] => if keep = 0 then none else some []
  | v :: rest =>
      if keep ≤ rest.length + 1 then rotateLoop keep rest else some (v :: rest)

/-- `AutomatedFinetuner._backup_existing_models` on the list of existing
version numbers (directory scanning and name parsing abstracted away;
malformed names are already excluded). -/
def backupExistingModels (keep : Nat) (versions : List Nat) : Option (List Nat) :=
  rotateLoop keep (List.insertionSort (· ≤ ·) versions)

/-- The effect of `run_automated_finetuning` on the set of version
directories: rotation first, then the new version's directory is written. -/
def runVersionEffect (keep : Nat) (versions : List Nat) (newVersion : Nat) :
    Option (List Nat) :=
  (backupExistingModels keep versions).map fun kept => kept ++ [newVersion]

example : backupExistingModels 3 [2, 4, 1, 3] = some [3, 4] := by decide

example : runVersionEffect 3 [2, 4, 1, 3] 5 = some [3, 4, 5] := by decide

/-!
## Helper lemmas
-/

/-- `Char.toLower` never produces an uppercase ASCII letter, in particular
never `'A'`: the code's `keyword in combined_text.lower()` check therefore
cannot match the keyword `"API"`. -/
theorem char_toLower_ne_A (c : Char) : c.toLower ≠ 'A' := by
  intro h
  have h2 := congrArg Char.toNat h
  unfold Char.toLower at h2
  by_cases hr : c.toNat ≥ 65 ∧ c.toNat ≤ 90
  · rw [if_pos hr] at h2
    have hv : (c.toNat + 32).isValidChar := by
      unfold Nat.isValidChar
      omega
    have h3 : (Char.ofNat (c.toNat + 32)).toNat = c.toNat + 32 := by
      unfold Char.ofNat
      rw [dif_pos hv]
      rfl
    rw [h3] at h2
    have h4 : ('A').toNat = 65 := by decide
    omega
  · rw [if_neg hr] at h2
    have h4 : ('A').toNat = 65 := by decide
    omega

/-- No lowercased text contains `"API"` as a substring. -/
theorem api_not_in_lowerStr (hay : Str) :
    containsSub (lowerStr hay) ("API".data) = false := by
  by_contra hne
  have h : containsSub (lowerStr hay) ("API".data) = true := by
    cases hc : containsSub (lowerStr hay) ("API".data)
    · exact absurd hc hne
    · rfl
  unfold containsSub at h
  obtain ⟨t, ht, hpre⟩ := List.any_eq_true.mp h
  rw [List.isPrefixOf_iff_prefix] at hpre
  have hA : 'A' ∈ t := by
    obtain ⟨r, hr⟩ := hpre
    rw [show ("API".data : Str) = 'A' :: 'P' :: 'I' :: [] from rfl] at hr
    rw [show ('A' :: 'P' :: 'I' :: [] : Str) ++ r = 'A' :: ('P' :: 'I' :: r) from rfl] at hr
    rw [hr.symm]
    exact List.mem_cons_self _ _
  have hsuf : t <:+ lowerStr hay := (List.mem_tails _ _).mp ht
  have hA2 : 'A' ∈ lowerStr hay := hsuf.subset hA
  unfold lowerStr at hA2
  obtain ⟨c, _, hc⟩ := List.mem_map.mp hA2
  exact char_toLower_ne_A c hc

/-!
## C10: collection disabled
-/

/-- Claim C10: when collection is disabled every `collect` call returns
`false` and increments `filtered_out` by exactly 1, leaving
`total_collected` unchanged, regardless of the texts and the durable-write
outcome — indistinguishable in the stats from a content rejection. -/
theorem collect_disabled (cfg : CollectorConfig) (st : CollectorStats)
    (u a ts : Str) (saveOk : Bool) (hdis : cfg.enabled = false) :
    (collectConversation cfg st u a ts saveOk).1 = false
    ∧ (collectConversation cfg st u a ts saveOk).2.filteredOut = st.filteredOut + 1
    ∧ (collectConversation cfg st u a ts saveOk).2.totalCollected = st.totalCollected := by
  simp [collectConversation, isValidConversation, hdis]

/-- Witness for C10 at a concrete disabled configuration and entry. -/
theorem collect_disabled_witness :
    (collectConversation ⟨false, 5, 2000, true⟩ ⟨7, 2, none⟩
        "good morning my friend".data "a very good morning to you as well".data [] true).1
      = false
    ∧ (collectConversation ⟨false, 5, 2000, true⟩ ⟨7, 2, none⟩
        "good morning my friend".data "a very good morning to you as well".data [] true).2.filteredOut
      = 3
    ∧ (collectConversation ⟨false, 5, 2000, true⟩ ⟨7, 2, none⟩
        "good morning my friend".data "a very good morning to you as well".data [] true).2.totalCollected
      = 7 :=
  collect_disabled ⟨false, 5, 2000, true⟩ ⟨7, 2, none⟩
    "good morning my friend".data "a very good morning to you as well".data [] true rfl

/-!
## C5: valid entries are collected
-/

/-- Claim C5: an entry whose trimmed texts are both within the configured
bounds and whose combined text contains no configured filter term (matched
case-insensitively), with collection enabled and the durable append
succeeding, is collected: `collect` returns `true`, `total_collected`
increases by exactly 1 and `filtered_out` is unchanged. -/
theorem collect_valid_entry (cfg : CollectorConfig) (st : CollectorStats)
    (u a ts : Str)
    (hen : cfg.enabled = true)
    (hu1 : cfg.minLength ≤ (stripStr u).length)
    (hu2 : (stripStr u).length ≤ cfg.maxLength)
    (ha1 : cfg.minLength ≤ (stripStr a).length)
    (ha2 : (stripStr a).length ≤ cfg.maxLength)
    (hterm : ∀ kw ∈ systemKeywords,
      containsSub (lowerStr (u ++ [' '] ++ a)) (lowerStr kw) = false) :
    (collectConversation cfg st u a ts true).1 = true
    ∧ (collectConversation cfg st u a ts true).2.totalCollected = st.totalCollected + 1
    ∧ (collectConversation cfg st u a ts true).2.filteredOut = st.filteredOut := by
  have hfind :
      systemKeywords.find?
        (fun keyword => containsSub (lowerStr (u ++ [' '] ++ a)) keyword) = none := by
    rw [List.find?_eq_none]
    intro kw hkw
    have hmem := hkw
    simp only [systemKeywords, List.mem_cons, List.not_mem_nil, or_false] at hmem
    rcases hmem with rfl | rfl | rfl | rfl | rfl | rfl | rfl | rfl | rfl | rfl | rfl | rfl | rfl
    · exact (by simpa using hterm _ hkw)
    · exact (by simpa using hterm _ hkw)
    · exact (by simpa using hterm _ hkw)
    · exact (by simpa using hterm _ hkw)
    · exact (by simpa using hterm _ hkw)
    · exact (by simpa using hterm _ hkw)
    · intro hc
      rw [show (['A', 'P', 'I'] : Str) = "API".data from rfl] at hc
      rw [api_not_in_lowerStr] at hc
      exact Bool.false_ne_true hc
    · exact (by simpa using hterm _ hkw)
    · exact (by simpa using hterm _ hkw)
    · exact (by simpa using hterm _ hkw)
    · exact (by simpa using hterm _ hkw)
    · exact (by simpa using hterm _ hkw)
    · exact (by simpa using hterm _ hkw)
  have hvalid : (isValidConversation cfg u a).1 = true := by
    unfold isValidConversation
    rw [hen]
    simp only [Bool.not_true, Bool.false_eq_true, if_false]
    rw [if_neg (by omega), if_neg (by omega), if_neg (by omega), if_neg (by omega)]
    by_cases hf : cfg.filterSystem
    · rw [if_pos hf, hfind]
    · rw [if_neg hf]
  simp [collectConversation, hvalid]

/-- Witness for C5: a concrete in-bounds, keyword-free entry is collected. -/
theorem collect_valid_entry_witness :
    (collectConversation ⟨true, 5, 2000, true⟩ ⟨4, 2, none⟩
        "good morning my friend".data "a very good morning to you as well".data [] true).1
      = true
    ∧ (collectConversation ⟨true, 5, 2000, true⟩ ⟨4, 2, none⟩
        "good morning my friend".data "a very good morning to you as well".data [] true).2.totalCollected
      = 5
    ∧ (collectConversation ⟨true, 5, 2000, true⟩ ⟨4, 2, none⟩
        "good morning my friend".data "a very good morning to you as well".data [] true).2.filteredOut
      = 2 :=
  collect_valid_entry ⟨true, 5, 2000, true⟩ ⟨4, 2, none⟩
    "good morning my friend".data "a very good morning to you as well".data []
    rfl (by decide) (by decide) (by decide) (by decide) (by decide)

/-!
## C6: rejected entries

The claim asserts case-insensitive matching of the configured filter terms.
The code lowercases the combined text but not the term, so the configured
term `"API"` (which contains uppercase letters) can never match: an entry
whose text contains `API` — a case-insensitive hit — is accepted.
-/

/-- Counterexample to C6: `"API"` is a configured filter term and occurs
case-insensitively in the combined text of this concrete entry, yet
`collect` returns `true` and `filtered_out` stays 0 (the claim demands
`false` and `filtered_out + 1`). -/
theorem collect_filter_term_counterexample :
    ("API".data ∈ systemKeywords)
    ∧ containsSub
        (lowerStr ("Would you kindly explain the API gateway".data ++ [' ']
          ++ "Here is a broad overview of gateways".data))
        (lowerStr "API".data) = true
    ∧ (collectConversation ⟨true, 5, 2000, true⟩ ⟨0, 0, none⟩
        "Would you kindly explain the API gateway".data
        "Here is a broad overview of gateways".data [] true).1 = true
    ∧ (collectConversation ⟨true, 5, 2000, true⟩ ⟨0, 0, none⟩
        "Would you kindly explain the API gateway".data
        "Here is a broad overview of gateways".data [] true).2.filteredOut = 0 := by
  refine ⟨by decide, by decide, by decide, by decide⟩

/-- Claim C6 as amended: the filter check lowercases only the text, so a
configured term is matched verbatim against the lowercased combined text
(lowercase terms are therefore matched case-insensitively; the term `API`
never matches).  Every entry violating a length bound, or — with the
system filter enabled — whose lowercased combined text contains a
configured term verbatim, is rejected: `collect` returns `false`,
`filtered_out` increases by exactly 1 and `total_collected` is
unchanged. -/
theorem collect_invalid_entry (cfg : CollectorConfig) (st : CollectorStats)
    (u a ts : Str) (saveOk : Bool)
    (h : ((stripStr u).length < cfg.minLength ∨ (stripStr a).length < cfg.minLength
          ∨ cfg.maxLength < (stripStr u).length ∨ cfg.maxLength < (stripStr a).length)
        ∨ (cfg.filterSystem = true ∧ ∃ kw ∈ systemKeywords,
            containsSub (lowerStr (u ++ [' '] ++ a)) kw = true)) :
    (collectConversation cfg st u a ts saveOk).1 = false
    ∧ (collectConversation cfg st u a ts saveOk).2.filteredOut = st.filteredOut + 1
    ∧ (collectConversation cfg st u a ts saveOk).2.totalCollected = st.totalCollected := by
  have hinvalid : (isValidConversation cfg u a).1 = false := by
    unfold isValidConversation
    by_cases he : cfg.enabled
    · rw [if_neg (by simp [he])]
      by_cases h1 : (stripStr u).length < cfg.minLength
      · rw [if_pos h1]
      · rw [if_neg h1]
        by_cases h2 : (stripStr a).length < cfg.minLength
        · rw [if_pos h2]
        · rw [if_neg h2]
          by_cases h3 : cfg.maxLength < (stripStr u).length
          · rw [if_pos h3]
          · rw [if_neg h3]
            by_cases h4 : cfg.maxLength < (stripStr a).length
            · rw [if_pos h4]
            · rw [if_neg h4]
              rcases h with (h5 | h5 | h5 | h5) | ⟨hf, kw, hkw, hc⟩
              · omega
              · omega
              · omega
              · omega
              · rw [if_pos hf]
                have hsome : (systemKeywords.find?
                    (fun keyword =>
                      containsSub (lowerStr (u ++ [' '] ++ a)) keyword)).isSome := by
                  rw [List.find?_isSome]
                  exact ⟨kw, hkw, hc⟩
                obtain ⟨y, hy⟩ := Option.isSome_iff_exists.mp hsome
                rw [hy]
    · rw [if_pos (by simp [he])]
  simp [collectConversation, hinvalid]

/-- Witness for the amended C6 at a concrete too-short entry. -/
theorem collect_invalid_entry_witness :
    (collectConversation ⟨true, 5, 2000, true⟩ ⟨4, 2, none⟩
        "hi".data "a very good morning to you as well".data [] true).1 = false
    ∧ (collectConversation ⟨true, 5, 2000, true⟩ ⟨4, 2, none⟩
        "hi".data "a very good morning to you as well".data [] true).2.filteredOut = 3
    ∧ (collectConversation ⟨true, 5, 2000, true⟩ ⟨4, 2, none⟩
        "hi".data "a very good morning to you as well".data [] true).2.totalCollected = 4 :=
  collect_invalid_entry ⟨true, 5, 2000, true⟩ ⟨4, 2, none⟩
    "hi".data "a very good morning to you as well".data [] true
    (Or.inl (Or.inl (by decide)))

/-!
## C7: token-span fallback

The fallback marks positions `total - target - 2` through `total - 2`: the
final position of the sequence is left unsupervised, so the mask does not
extend "to the end", and no approximate flag is attached to the sample
anywhere in `tokenize_function`.
-/

/-- Counterexample to C7: on a concrete sample with no exact token match the
fallback fires (estimated start `8 - 2 - 2 = 4`), yet the last position 7 is
left at `-100`, while the claim requires every position from
`total - target - fixed_margin` to the end of the sequence to be
trainable. -/
theorem fallback_span_counterexample :
    findSubIdx [1, 2, 3, 4, 5, 6, 7, 8] [9, 9] = none
    ∧ makeLabel [1, 2, 3, 4, 5, 6, 7, 8] [9, 9]
        = [-100, -100, -100, -100, 5, 6, 7, -100]
    ∧ (makeLabel [1, 2, 3, 4, 5, 6, 7, 8] [9, 9]).getD 7 (-100) = -100 := by
  refine ⟨by decide, by decide, by decide⟩

/-- Claim C7 as amended: when the target's token sequence has no exact
contiguous occurrence and `estimated_start = total - target - 2` is
positive, the supervision mask marks as trainable exactly the positions
from `estimated_start` up to but excluding the final position
`total - 1`; no approximate-sample flag is produced.  (Token ids are
non-negative, so a marked position is exactly one whose label differs from
the `-100` sentinel.) -/
theorem fallback_span (inputIds target : List Int)
    (hnm : findSubIdx inputIds target = none)
    (hlen : 0 < target.length)
    (hpos : ∀ x ∈ inputIds, 0 ≤ x)
    (hest : 0 < (inputIds.length : Int) - (target.length : Int) - 2) :
    (makeLabel inputIds target).length = inputIds.length
    ∧ ∀ j, j < inputIds.length →
      ((makeLabel inputIds target).getD j (-100) ≠ -100 ↔
        ((inputIds.length : Int) - (target.length : Int) - 2 ≤ (j : Int)
          ∧ j + 1 < inputIds.length)) := by
  constructor
  · simp [makeLabel, hlen, hnm, hest]
  · intro j hj
    have hget : (makeLabel inputIds target).getD j (-100) =
        (if ((inputIds.length : Int) - (target.length : Int) - 2 ≤ (j : Int)
            ∧ j + 1 < inputIds.length) then inputIds.getD j (-100) else -100) := by
      simp only [makeLabel, if_pos hlen, hnm, if_pos hest]
      rw [List.getD_eq_getElem?_getD, List.getElem?_map, List.getElem?_range hj]
      rfl
    rw [hget]
    by_cases hc : ((inputIds.length : Int) - (target.length : Int) - 2 ≤ (j : Int)
        ∧ j + 1 < inputIds.length)
    · rw [if_pos hc]
      have hmem : inputIds.getD j (-100) ∈ inputIds := by
        rw [List.getD_eq_getElem?_getD, List.getElem?_eq_getElem hj]
        exact List.getElem_mem hj
      have hge := hpos _ hmem
      constructor
      · intro _
        exact hc
      · intro _
        omega
    · rw [if_neg hc]
      constructor
      · intro habs
        exact absurd rfl habs
      · intro hr
        exact absurd hr hc

/-- Witness for the amended C7 at a concrete fallback sample and position. -/
theorem fallback_span_witness :
    (makeLabel [1, 2, 3, 4, 5, 6, 7, 8] [9, 9]).getD 5 (-100) ≠ -100 ↔
      ((([1, 2, 3, 4, 5, 6, 7, 8] : List Int).length : Int)
          - (([9, 9] : List Int).length : Int) - 2 ≤ (5 : Int)
        ∧ 5 + 1 < ([1, 2, 3, 4, 5, 6, 7, 8] : List Int).length) :=
  (fallback_span [1, 2, 3, 4, 5, 6, 7, 8] [9, 9] (by decide) (by decide)
    (by decide) (by decide)).2 5 (by decide)

/-!
## C8: backup rotation bound
-/

/-- The pop-while loop always succeeds for a positive retention count and
returns a suffix of its (sorted) input of length strictly below the limit;
when the input is already below the limit nothing is deleted. -/
theorem rotateLoop_spec (keep : Nat) (h : 0 < keep) :
    ∀ l : List Nat, ∃ r, rotateLoop keep l = some r ∧ r.length < keep
      ∧ r <:+ l ∧ (l.length < keep → r = l) := by
  intro l
  induction l with
  | nil =>
      refine ⟨[], ?_, by simpa using h, List.suffix_refl [], fun _ => rfl⟩
      unfold rotateLoop
      rw [if_neg (by omega)]
  | cons v rest ih =>
      obtain ⟨r, hr, hrlen, hrsuf, hreq⟩ := ih
      by_cases hg : keep ≤ rest.length + 1
      · refine ⟨r, ?_, hrlen, hrsuf.trans (List.suffix_cons v rest), ?_⟩
        · unfold rotateLoop
          rw [if_pos hg]
          exact hr
        · intro hlt
          simp only [List.length_cons] at hlt
          omega
      · refine ⟨v :: rest, ?_, ?_, List.suffix_refl _, fun _ => rfl⟩
        · unfold rotateLoop
          rw [if_neg hg]
        · simp only [List.length_cons]
          omega

/-- Claim C8: with a positive configured `backup_count`, rotation always
succeeds and leaves strictly fewer than `keep_count` version directories,
the retained ones being a suffix of the ascending version order (so exactly
the lowest-numbered versions are deleted, and every deleted version number
is at most every retained one); if the count was already below the limit
nothing is deleted.  Rotation runs before the new version directory is
materialized, so after a run the count including the new version still does
not exceed the limit. -/
theorem backup_rotation_bound (keep : Nat) (versions : List Nat)
    (newVersion : Nat) (h : 0 < keep) :
    ∃ kept, backupExistingModels keep versions = some kept
      ∧ kept.length < keep
      ∧ kept <:+ List.insertionSort (· ≤ ·) versions
      ∧ (∀ d ∈ (List.insertionSort (· ≤ ·) versions).take
            ((List.insertionSort (· ≤ ·) versions).length - kept.length),
          ∀ k ∈ kept, d ≤ k)
      ∧ (versions.length < keep → kept = List.insertionSort (· ≤ ·) versions)
      ∧ runVersionEffect keep versions newVersion = some (kept ++ [newVersion])
      ∧ (kept ++ [newVersion]).length ≤ keep := by
  obtain ⟨r, hr, hrlen, hrsuf, hreq⟩ :=
    rotateLoop_spec keep h (List.insertionSort (· ≤ ·) versions)
  have hbackup : backupExistingModels keep versions = some r := hr
  refine ⟨r, hbackup, hrlen, hrsuf, ?_, ?_, ?_, ?_⟩
  · obtain ⟨p, hp⟩ := hrsuf
    have hplen : p.length =
        (List.insertionSort (· ≤ ·) versions).length - r.length := by
      have := congrArg List.length hp
      simp only [List.length_append] at this
      omega
    have htake : (List.insertionSort (· ≤ ·) versions).take
        ((List.insertionSort (· ≤ ·) versions).length - r.length) = p := by
      rw [← hplen, ← hp]
      exact List.take_left p r
    rw [htake]
    have hsorted : List.Sorted (· ≤ ·) (List.insertionSort (· ≤ ·) versions) :=
      List.sorted_insertionSort (· ≤ ·) versions
    rw [← hp] at hsorted
    exact (List.pairwise_append.mp hsorted).2.2
  · intro hlt
    exact hreq (by rw [List.length_insertionSort]; exact hlt)
  · unfold runVersionEffect
    rw [hbackup]
    rfl
  · simp only [List.length_append, List.length_singleton]
    omega

/-- Witness for C8 at `keep_count = 3` with four existing versions. -/
theorem backup_rotation_bound_witness :
    ∃ kept, backupExistingModels 3 [2, 4, 1, 3] = some kept
      ∧ kept.length < 3
      ∧ kept <:+ List.insertionSort (· ≤ ·) [2, 4, 1, 3]
      ∧ (∀ d ∈ (List.insertionSort (· ≤ ·) [2, 4, 1, 3]).take
            ((List.insertionSort (· ≤ ·) [2, 4, 1, 3]).length - kept.length),
          ∀ k ∈ kept, d ≤ k)
      ∧ ([2, 4, 1, 3].length < 3 → kept = List.insertionSort (· ≤ ·) [2, 4, 1, 3])
      ∧ runVersionEffect 3 [2, 4, 1, 3] 5 = some (kept ++ [5])
      ∧ (kept ++ [5]).length ≤ 3 :=
  backup_rotation_bound 3 [2, 4, 1, 3] 5 (by decide)

/-!
## C9: settings updates

`update_settings` handles each keyword argument in its own independent
`if`, so an invalid `batch_size` is skipped (previous value retained) while
the other supplied fields of the very same call still take effect: the
multi-field update is not atomic.
-/

/-- Counterexample to C9: a single call supplying the invalid
`batch_size = 0` together with `auto_trigger = false` leaves `batch_size`
at its previous value but still applies `auto_trigger` — a partial
application, which the claim rules out. -/
theorem update_settings_atomicity_counterexample :
    ¬ ((0 : Int) > 0)
    ∧ (updateSettingsM (initState ⟨true, 5, 2000, true⟩ 50 true true)
        ⟨some 0, some false, none, none⟩).1.batchSize = 50
    ∧ (initState ⟨true, 5, 2000, true⟩ 50 true true).autoTrigger = true
    ∧ (updateSettingsM (initState ⟨true, 5, 2000, true⟩ 50 true true)
        ⟨some 0, some false, none, none⟩).1.autoTrigger = false := by
  refine ⟨by decide, by decide, by decide, by decide⟩

/-- Claim C9 as amended: an invalid (non-positive) `batch_size` is rejected
with the previous value left in effect, but the update is applied
per-field, not atomically: every valid supplied field takes effect even
when another field of the same call is invalid, and omitted fields are
untouched. -/
theorem update_settings_per_field (s : MState) (args : UpdateArgs) :
    (∀ b, args.batchSize = some b → b ≤ 0 →
      (updateSettingsM s args).1.batchSize = s.batchSize)
    ∧ (∀ b, args.batchSize = some b → 0 < b →
      (updateSettingsM s args).1.batchSize = b)
    ∧ (args.batchSize = none → (updateSettingsM s args).1.batchSize = s.batchSize)
    ∧ (∀ v, args.autoTrigger = some v → (updateSettingsM s args).1.autoTrigger = v)
    ∧ (args.autoTrigger = none → (updateSettingsM s args).1.autoTrigger = s.autoTrigger)
    ∧ (∀ v, args.collectionEnabled = some v →
      (updateSettingsM s args).1.collectorEnabled = v)
    ∧ (args.collectionEnabled = none →
      (updateSettingsM s args).1.collectorEnabled = s.collectorEnabled)
    ∧ (∀ v, args.monitoringEnabled = some v →
      (updateSettingsM s args).1.monitoringEnabled = v)
    ∧ (args.monitoringEnabled = none →
      (updateSettingsM s args).1.monitoringEnabled = s.monitoringEnabled) := by
  obtain ⟨ab, aa, ac, am⟩ := args
  cases ab <;> cases aa <;> cases ac <;> cases am <;>
    refine ⟨?_, ?_, ?_, ?_, ?_, ?_, ?_, ?_, ?_⟩ <;>
    intros <;>
    (try simp_all [updateSettingsM]) <;>
    (try split) <;>
    (try simp_all) <;>
    (try omega)

/-- Witness for the amended C9: an invalid `batch_size` is retained while
the valid fields of the same call take effect. -/
theorem update_settings_per_field_witness :
    (updateSettingsM (initState ⟨true, 5, 2000, true⟩ 50 true true)
        ⟨some (-2), some false, some false, some false⟩).1.batchSize = 50
    ∧ (updateSettingsM (initState ⟨true, 5, 2000, true⟩ 50 true true)
        ⟨some (-2), some false, some false, some false⟩).1.autoTrigger = false
    ∧ (updateSettingsM (initState ⟨true, 5, 2000, true⟩ 50 true true)
        ⟨some (-2), some false, some false, some false⟩).1.collectorEnabled = false
    ∧ (updateSettingsM (initState ⟨true, 5, 2000, true⟩ 50 true true)
        ⟨some (-2), some false, some false, some false⟩).1.monitoringEnabled = false :=
  ⟨(update_settings_per_field (initState ⟨true, 5, 2000, true⟩ 50 true true)
      ⟨some (-2), some false, some false, some false⟩).1 (-2) rfl (by decide),
   (update_settings_per_field (initState ⟨true, 5, 2000, true⟩ 50 true true)
      ⟨some (-2), some false, some false, some false⟩).2.2.2.1 false rfl,
   (update_settings_per_field (initState ⟨true, 5, 2000, true⟩ 50 true true)
      ⟨some (-2), some false, some false, some false⟩).2.2.2.2.2.1 false rfl,
   (update_settings_per_field (initState ⟨true, 5, 2000, true⟩ 50 true true)
      ⟨some (-2), some false, some false, some false⟩).2.2.2.2.2.2.2.1 false rfl⟩

/-!
## C3: delta-based trigger policy
-/

/-- A successful `collect` increments `total_collected` by exactly one. -/
theorem collect_true_effect (cfg : CollectorConfig) (st : CollectorStats)
    (u a ts : Str) (ok : Bool)
    (h : (collectConversation cfg st u a ts ok).1 = true) :
    (collectConversation cfg st u a ts ok).2.totalCollected = st.totalCollected + 1 := by
  cases ok
  · by_cases hv : (isValidConversation cfg u a).1 <;>
      simp [collectConversation, hv] at h
  · by_cases hv : (isValidConversation cfg u a).1
    · simp [collectConversation, hv]
    · simp [collectConversation, hv] at h

/-- Claim C3: after a collected turn, the trigger evaluation of
`process_conversation` is exactly the delta policy
`total_collected - last_training_count >= batch_size` of the spec, and the
delta policy is not the modulo policy
(`total_collected % batch_size == 0`) still present in
`ConversationCollector.should_trigger_training` — the two disagree. -/
theorem delta_trigger_policy (s : MState) (u a ts : Str)
    (hauto : s.autoTrigger = true) (hfin : s.finetunerEnabled = true)
    (hcol : (collectConversation (collectorConfigOf s) s.stats u a ts true).1 = true) :
    ((processConversationM s u a ts true).2.shouldTrain =
        specDeltaPolicy (s.stats.totalCollected + 1) s.lastTrainingCount s.batchSize)
    ∧ (∃ total last batch : Nat,
        specDeltaPolicy total last (batch : Int) = true
        ∧ collectorShouldTriggerTraining total batch = false) := by
  refine ⟨?_, ⟨7, 0, 3, by decide, by decide⟩⟩
  have htot := collect_true_effect (collectorConfigOf s) s.stats u a ts true hcol
  have hkey : ∀ t : MState, t.batchSize = s.batchSize →
      t.stats.totalCollected = s.stats.totalCollected + 1 →
      t.lastTrainingCount = s.lastTrainingCount →
      shouldTriggerTraining t =
        specDeltaPolicy (s.stats.totalCollected + 1) s.lastTrainingCount s.batchSize := by
    intro t h1 h2 h3
    unfold shouldTriggerTraining specDeltaPolicy getNewDataCount
    rw [h1, h2, h3]
  simp only [processConversationM]
  simp only [hcol, hauto, hfin, if_true, Bool.and_self]
  split
  · split
    · simp only []
      exact hkey _ rfl htot rfl
    · simp only []
      exact hkey _ rfl htot rfl
  · simp only []
    exact hkey _ rfl htot rfl

/-- Witness for C3 at a concrete state and entry. -/
theorem delta_trigger_policy_witness :
    ((processConversationM (initState ⟨true, 5, 2000, true⟩ 1 true true)
        "good morning my friend".data "a very good morning to you as well".data []
        true).2.shouldTrain =
      specDeltaPolicy (0 + 1) 0 1)
    ∧ (∃ total last batch : Nat,
        specDeltaPolicy total last (batch : Int) = true
        ∧ collectorShouldTriggerTraining total batch = false) :=
  delta_trigger_policy (initState ⟨true, 5, 2000, true⟩ 1 true true)
    "good morning my friend".data "a very good morning to you as well".data []
    rfl rfl (by decide)

/-!
## Step-shape lemmas for the coordinator transition system
-/

/-- `update_settings` never touches the collector stats or the training
state-machine fields. -/
theorem updateSettingsM_untouched (s : MState) (args : UpdateArgs) :
    (updateSettingsM s args).1.activeWorkers = s.activeWorkers
    ∧ (updateSettingsM s args).1.trainingInProgress = s.trainingInProgress
    ∧ (updateSettingsM s args).1.stats = s.stats
    ∧ (updateSettingsM s args).1.lastTrainingCount = s.lastTrainingCount
    ∧ (updateSettingsM s args).1.workerSnapshot = s.workerSnapshot
    ∧ (updateSettingsM s args).1.pendingTrainingRequest = s.pendingTrainingRequest := by
  obtain ⟨ab, aa, ac, am⟩ := args
  cases ab <;> cases aa <;> cases ac <;> cases am <;>
    simp only [updateSettingsM] <;> (try split) <;> simp

/-- `collect` never decreases `total_collected`. -/
theorem collect_total_mono (cfg : CollectorConfig) (st : CollectorStats)
    (u a ts : Str) (ok : Bool) :
    st.totalCollected ≤ (collectConversation cfg st u a ts ok).2.totalCollected := by
  by_cases hv : (isValidConversation cfg u a).1 <;> cases ok <;>
    simp [collectConversation, hv]

/-- Every atomic step either leaves the worker count and in-progress flag
unchanged, starts one worker after observing the flag `false` (setting it
`true` in the same critical section), or retires one worker clearing the
flag. -/
theorem stepM_worker_shape (s : MState) (a : MAct) :
    ((stepM s a).activeWorkers = s.activeWorkers
      ∧ (stepM s a).trainingInProgress = s.trainingInProgress)
    ∨ (s.trainingInProgress = false ∧ (stepM s a).trainingInProgress = true
      ∧ (stepM s a).activeWorkers = s.activeWorkers + 1)
    ∨ ((stepM s a).trainingInProgress = false
      ∧ (stepM s a).activeWorkers = s.activeWorkers - 1 ∧ s.activeWorkers ≠ 0) := by
  cases a with
  | processConversation u v ts ok =>
      simp only [stepM, processConversationM]
      split
      · split
        · split
          · split
            · rename_i hni
              refine Or.inr (Or.inl ?_)
              have hf : s.trainingInProgress = false := by
                simpa using hni
              simp [triggerAsyncTraining, hf]
            · exact Or.inl ⟨rfl, rfl⟩
          · exact Or.inl ⟨rfl, rfl⟩
        · exact Or.inl ⟨rfl, rfl⟩
      · exact Or.inl ⟨rfl, rfl⟩
  | finishJob ok =>
      simp only [stepM, finishJobM]
      split
      · exact Or.inl ⟨rfl, rfl⟩
      · rename_i h0
        split
        · split
          · split
            · exact Or.inl ⟨rfl, rfl⟩
            · exact Or.inr (Or.inr ⟨rfl, rfl, h0⟩)
          · exact Or.inr (Or.inr ⟨rfl, rfl, h0⟩)
        · exact Or.inr (Or.inr ⟨rfl, rfl, h0⟩)
  | applySettings args =>
      obtain ⟨h1, h2, _⟩ := updateSettingsM_untouched s args
      exact Or.inl ⟨h1, h2⟩
  | clearConversations => exact Or.inl ⟨rfl, rfl⟩
  | backupConversations => exact Or.inl ⟨rfl, rfl⟩

/-- Every atomic step other than a store clear can only grow
`total_collected`; `last_training_count` is either untouched or set to the
running worker's snapshot; the snapshot is either untouched or refreshed to
the new `total_collected`. -/
theorem stepM_count_shape (s : MState) (a : MAct)
    (hne : a ≠ MAct.clearConversations) :
    s.stats.totalCollected ≤ (stepM s a).stats.totalCollected
    ∧ ((stepM s a).lastTrainingCount = s.lastTrainingCount
       ∨ (stepM s a).lastTrainingCount = s.workerSnapshot)
    ∧ ((stepM s a).workerSnapshot = s.workerSnapshot
       ∨ (stepM s a).workerSnapshot = (stepM s a).stats.totalCollected) := by
  cases a with
  | processConversation u v ts ok =>
      have hmono := collect_total_mono (collectorConfigOf s) s.stats u v ts ok
      simp only [stepM, processConversationM]
      split
      · split
        · split
          · split
            · rename_i hni
              have hf : s.trainingInProgress = false := by
                simpa using hni
              refine ⟨?_, Or.inl ?_, Or.inr ?_⟩ <;>
                simp [triggerAsyncTraining, hf, hmono]
            · exact ⟨hmono, Or.inl rfl, Or.inl rfl⟩
          · exact ⟨hmono, Or.inl rfl, Or.inl rfl⟩
        · exact ⟨hmono, Or.inl rfl, Or.inl rfl⟩
      · exact ⟨hmono, Or.inl rfl, Or.inl rfl⟩
  | finishJob ok =>
      simp only [stepM, finishJobM]
      split
      · exact ⟨Nat.le_refl _, Or.inl rfl, Or.inl rfl⟩
      · split
        · split
          · split
            · exact ⟨Nat.le_refl _, Or.inr rfl, Or.inr rfl⟩
            · exact ⟨Nat.le_refl _, Or.inr rfl, Or.inl rfl⟩
          · exact ⟨Nat.le_refl _, Or.inr rfl, Or.inl rfl⟩
        · exact ⟨Nat.le_refl _, Or.inl rfl, Or.inl rfl⟩
  | applySettings args =>
      obtain ⟨_, _, h3, h4, h5, _⟩ := updateSettingsM_untouched s args
      exact ⟨by rw [stepM, h3], Or.inl h4, Or.inl h5⟩
  | clearConversations => exact absurd rfl hne
  | backupConversations => exact ⟨Nat.le_refl _, Or.inl rfl, Or.inl rfl⟩

/-!
## C2: mutual exclusion
-/

/-- The single-flight invariant: at most one live worker, and the
in-progress flag holds exactly when a worker is live. -/
def WorkerInv (s : MState) : Prop :=
  s.activeWorkers ≤ 1 ∧ (s.trainingInProgress = true ↔ s.activeWorkers = 1)

/-- Every atomic step preserves the single-flight invariant. -/
theorem stepM_preserves_workerInv (s : MState) (a : MAct) (h : WorkerInv s) :
    WorkerInv (stepM s a) := by
  obtain ⟨hle, hiff⟩ := h
  rcases stepM_worker_shape s a with ⟨h1, h2⟩ | ⟨h1, h2, h3⟩ | ⟨h1, h2, h3⟩
  · constructor
    · rw [h1]
      exact hle
    · rw [h1, h2]
      exact hiff
  · have hz : s.activeWorkers = 0 := by
      rcases Nat.lt_or_ge s.activeWorkers 1 with hlt | hge
      · omega
      · exfalso
        have : s.trainingInProgress = true := hiff.mpr (by omega)
        rw [h1] at this
        exact Bool.false_ne_true this
    constructor
    · omega
    · rw [h2, h3, hz]
      simp
  · constructor
    · omega
    · rw [h1, h2]
      constructor
      · intro hft
        exact absurd hft Bool.false_ne_true
      · intro heq
        omega

/-- Running any action sequence from an invariant state stays invariant. -/
theorem runM_preserves_workerInv (acts : List MAct) :
    ∀ s : MState, WorkerInv s → WorkerInv (runM s acts) := by
  induction acts with
  | nil => intro s h; exact h
  | cons a rest ih =>
      intro s h
      exact ih (stepM s a) (stepM_preserves_workerInv s a h)

/-- Claim C2: along every action sequence from the initial state at most one
training worker is live at any instant, and any step that increases the
worker count observes `training_in_progress = false` and sets it `true` in
the same lock-protected critical section. -/
theorem training_mutual_exclusion (cfg : CollectorConfig) (batch : Int)
    (auto fin : Bool) (acts : List MAct) (s : MState) (a : MAct)
    (hinc : s.activeWorkers < (stepM s a).activeWorkers) :
    (runM (initState cfg batch auto fin) acts).activeWorkers ≤ 1
    ∧ s.trainingInProgress = false
    ∧ (stepM s a).trainingInProgress = true := by
  have hinit : WorkerInv (initState cfg batch auto fin) := by
    constructor
    · simp [initState]
    · simp [initState]
  have hrun := runM_preserves_workerInv acts (initState cfg batch auto fin) hinit
  refine ⟨hrun.1, ?_⟩
  rcases stepM_worker_shape s a with ⟨h1, _⟩ | ⟨h1, h2, _⟩ | ⟨_, h2, h3⟩
  · omega
  · exact ⟨h1, h2⟩
  · omega

/-- Witness for C2 at a concrete trace and a concrete worker-starting
step. -/
theorem training_mutual_exclusion_witness :
    (runM (initState ⟨true, 5, 2000, true⟩ 1 true true)
        [MAct.processConversation "good morning my friend".data
          "a very good morning to you as well".data [] true]).activeWorkers ≤ 1
    ∧ (initState ⟨true, 5, 2000, true⟩ 1 true true).trainingInProgress = false
    ∧ (stepM (initState ⟨true, 5, 2000, true⟩ 1 true true)
        (MAct.processConversation "good morning my friend".data
          "a very good morning to you as well".data [] true)).trainingInProgress
      = true :=
  training_mutual_exclusion ⟨true, 5, 2000, true⟩ 1 true true
    [MAct.processConversation "good morning my friend".data
      "a very good morning to you as well".data [] true]
    (initState ⟨true, 5, 2000, true⟩ 1 true true)
    (MAct.processConversation "good morning my friend".data
      "a very good morning to you as well".data [] true)
    (by decide)

/-!
## C4: the new-data invariant
-/

/-- Counterexample to C4: collect one entry (batch size 1), let the
triggered job complete successfully (`last_training_count` becomes 1), then
clear the conversation store — the store resets `total_collected` to 0 but
`last_training_count` stays 1, so `total_collected - last_training_count`
is negative. -/
theorem new_data_invariant_counterexample :
    ((runM (initState ⟨true, 5, 2000, true⟩ 1 true true)
        [MAct.processConversation "good morning my friend".data
          "a very good morning to you as well".data [] true,
         MAct.finishJob true,
         MAct.clearConversations]).stats.totalCollected : Int)
      - ((runM (initState ⟨true, 5, 2000, true⟩ 1 true true)
        [MAct.processConversation "good morning my friend".data
          "a very good morning to you as well".data [] true,
         MAct.finishJob true,
         MAct.clearConversations]).lastTrainingCount : Int) < 0 := by
  decide

/-- The count invariant used for the clear-free induction. -/
def CountInv (s : MState) : Prop :=
  s.lastTrainingCount ≤ s.stats.totalCollected
  ∧ s.workerSnapshot ≤ s.stats.totalCollected

/-- Every atomic step other than a store clear preserves the count
invariant. -/
theorem stepM_preserves_countInv (s : MState) (a : MAct)
    (hne : a ≠ MAct.clearConversations) (h : CountInv s) :
    CountInv (stepM s a) := by
  obtain ⟨hl, hs⟩ := h
  obtain ⟨hmono, hlast, hsnap⟩ := stepM_count_shape s a hne
  constructor
  · rcases hlast with h1 | h1 <;> omega
  · rcases hsnap with h1 | h1 <;> omega

/-- Running any clear-free action sequence preserves the count invariant. -/
theorem runM_preserves_countInv (acts : List MAct) :
    ∀ s : MState, MAct.clearConversations ∉ acts → CountInv s →
      CountInv (runM s acts) := by
  induction acts with
  | nil => intro s _ h; exact h
  | cons a rest ih =>
      intro s hmem h
      have hne : a ≠ MAct.clearConversations := by
        intro heq
        exact hmem (heq ▸ List.mem_cons_self a rest)
      have hrest : MAct.clearConversations ∉ rest := by
        intro hm
        exact hmem (List.mem_cons_of_mem a hm)
      exact ih (stepM s a) hrest (stepM_preserves_countInv s a hne h)

/-- Claim C4 as amended: `total_collected - last_training_count >= 0` holds
after every sequence of collects, training completions, settings updates
and store backups starting from the initial state; a store clear is
excluded, because `clear_conversations` resets `total_collected` while the
manager's `last_training_count` is retained, which breaks the invariant. -/
theorem new_data_invariant_no_clear (cfg : CollectorConfig) (batch : Int)
    (auto fin : Bool) (acts : List MAct)
    (hcl : MAct.clearConversations ∉ acts) :
    0 ≤ ((runM (initState cfg batch auto fin) acts).stats.totalCollected : Int)
      - ((runM (initState cfg batch auto fin) acts).lastTrainingCount : Int) := by
  have hinit : CountInv (initState cfg batch auto fin) := by
    constructor <;> simp [initState]
  have h := runM_preserves_countInv acts (initState cfg batch auto fin) hcl hinit
  have := h.1
  omega

/-- Witness for the amended C4 on a concrete clear-free trace. -/
theorem new_data_invariant_no_clear_witness :
    0 ≤ ((runM (initState ⟨true, 5, 2000, true⟩ 1 true true)
        [MAct.processConversation "good morning my friend".data
          "a very good morning to you as well".data [] true,
         MAct.finishJob true,
         MAct.backupConversations]).stats.totalCollected : Int)
      - ((runM (initState ⟨true, 5, 2000, true⟩ 1 true true)
        [MAct.processConversation "good morning my friend".data
          "a very good morning to you as well".data [] true,
         MAct.finishJob true,
         MAct.backupConversations]).lastTrainingCount : Int) :=
  new_data_invariant_no_clear ⟨true, 5, 2000, true⟩ 1 true true
    [MAct.processConversation "good morning my friend".data
      "a very good morning to you as well".data [] true,
     MAct.finishJob true,
     MAct.backupConversations]
    (by decide)

/-!
## C1: single-flight with queuing
-/

/-- Claim C1: when a collected turn meets the trigger condition while a job
is running, no second job starts — the worker count and flag are unchanged
and the queued-request flag is set (a bare assignment to `true`, so repeat
crossings cannot stack further requests and the result reports
`training_queued`, not `training_triggered`); and when a running job
completes successfully with a queued request pending, the request is always
cleared, and exactly one follow-up job starts if and only if
`total_collected - last_training_count` (with `last_training_count` freshly
set to the completed worker's snapshot) still meets `batch_size` — otherwise
the coordinator goes idle without starting a job. -/
theorem single_flight_queuing (s1 s2 : MState) (u v ts : Str)
    (h1run : s1.trainingInProgress = true)
    (h1auto : s1.autoTrigger = true)
    (h1fin : s1.finetunerEnabled = true)
    (h1col : (collectConversation (collectorConfigOf s1) s1.stats u v ts true).1 = true)
    (h1due : s1.batchSize ≤
      ((collectConversation (collectorConfigOf s1) s1.stats u v ts true).2.totalCollected : Int)
        - (s1.lastTrainingCount : Int))
    (h2run : s2.trainingInProgress = true)
    (h2w : s2.activeWorkers = 1)
    (h2p : s2.pendingTrainingRequest = true) :
    ((processConversationM s1 u v ts true).1.activeWorkers = s1.activeWorkers
      ∧ (processConversationM s1 u v ts true).1.trainingInProgress = true
      ∧ (processConversationM s1 u v ts true).1.pendingTrainingRequest = true
      ∧ (processConversationM s1 u v ts true).2.trainingTriggered = false
      ∧ (processConversationM s1 u v ts true).2.trainingQueued = true)
    ∧ ((finishJobM s2 true).pendingTrainingRequest = false
      ∧ (s2.batchSize ≤ (s2.stats.totalCollected : Int) - (s2.workerSnapshot : Int) →
          (finishJobM s2 true).activeWorkers = 1
          ∧ (finishJobM s2 true).trainingInProgress = true
          ∧ (finishJobM s2 true).lastTrainingCount = s2.workerSnapshot)
      ∧ (¬ (s2.batchSize ≤ (s2.stats.totalCollected : Int) - (s2.workerSnapshot : Int)) →
          (finishJobM s2 true).activeWorkers = 0
          ∧ (finishJobM s2 true).trainingInProgress = false
          ∧ (finishJobM s2 true).lastTrainingCount = s2.workerSnapshot)) := by
  constructor
  · simp only [processConversationM, shouldTriggerTraining, getNewDataCount]
    simp [h1col, h1auto, h1fin, h1run, h1due]
  · simp only [finishJobM, getNewDataCount]
    refine ⟨?_, ?_, ?_⟩
    · simp only [h2w, h2p]
      norm_num
      split <;> simp
    · intro hdue
      simp only [h2w, h2p]
      norm_num
      rw [if_pos hdue]
      exact ⟨rfl, h2run, rfl⟩
    · intro hnd
      simp only [h2w, h2p]
      norm_num
      rw [if_neg hnd]
      exact ⟨rfl, rfl, rfl⟩

/-- The concrete state used to witness the queue-while-running half of C1:
a job is running and the next collected turn crosses the threshold. -/
def queueWitnessState : MState :=
  { initState ⟨true, 5, 2000, true⟩ 1 true true with
      trainingInProgress := true, activeWorkers := 1 }

/-- The concrete state used to witness the completion half of C1: a running
worker with snapshot 2 finishes while three entries are collected and a
request is queued (batch size 1, so the delta 3 - 2 = 1 is still due). -/
def finishWitnessState : MState :=
  { initState ⟨true, 5, 2000, true⟩ 1 true true with
      trainingInProgress := true, activeWorkers := 1,
      pendingTrainingRequest := true,
      stats := ⟨3, 0, none⟩, workerSnapshot := 2 }

/-- Witness for C1 at the two concrete states. -/
theorem single_flight_queuing_witness :
    (processConversationM queueWitnessState
        "good morning my friend".data "a very good morning to you as well".data []
        true).1.activeWorkers = 1
    ∧ (processConversationM queueWitnessState
        "good morning my friend".data "a very good morning to you as well".data []
        true).1.pendingTrainingRequest = true
    ∧ (processConversationM queueWitnessState
        "good morning my friend".data "a very good morning to you as well".data []
        true).2.trainingTriggered = false
    ∧ (finishJobM finishWitnessState true).pendingTrainingRequest = false
    ∧ (finishJobM finishWitnessState true).activeWorkers = 1
    ∧ (finishJobM finishWitnessState true).trainingInProgress = true := by
  have h := single_flight_queuing queueWitnessState finishWitnessState
    "good morning my friend".data "a very good morning to you as well".data []
    (by decide) (by decide) (by decide) (by decide) (by decide)
    (by decide) (by decide) (by decide)
  obtain ⟨⟨a1, _, a3, a4, _⟩, ⟨b1, b2, _⟩⟩ := h
  have hdue : (finishWitnessState.batchSize ≤
      (finishWitnessState.stats.totalCollected : Int)
        - (finishWitnessState.workerSnapshot : Int)) := by decide
  obtain ⟨c1, c2, _⟩ := b2 hdue
  exact ⟨a1, a3, a4, b1, c1, c2⟩

end EchoRAG
